import Mathlib

/-!
Verification development for the D-BIAS bias-detection core
(`backend/bias_detector.py`): a shallow embedding of the
`MLBiasOptimizer` / `BiasDetector` / `BiasReporter` classes, followed by
theorems about the embedded definitions.

Modelling conventions:
* Machine floats are modelled as exact rationals (`ℚ`).
* A pandas DataFrame is a list of named, kind-tagged columns whose cells
  are `Option ℚ` (`none` = NaN/missing).  Categorical labels are
  abstracted as rationals (any injection of the label set works; a
  boolean target is 0/1, which is what makes `groupby(...).mean()`
  meaningful in `detect_target_association`).
* Transcendental / library-level statistics that a rational model cannot
  evaluate exactly — per-column skewness, chi-squared p-values, Pearson
  correlation coefficients, the entropy value `-(vc*log2(vc+1e-12)).sum()`
  and the PCA reduction — are supplied by a `StatsOracle` of pure
  functions; every theorem below is quantified over the oracle, so the
  theorems state exactly the threshold/branching logic of the source.
* The human-readable `Description` strings embed formatted numeric
  evidence in the source; the float formatting is abstracted to fixed
  strings (the fields every claim is about — Type, Feature, Severity —
  are modelled exactly; the one description a claim mentions, the
  high-dimension correlation-skip placeholder, is a string constant in
  the source and is kept verbatim).
* The in-place mutation `self.bias_report.append(...)` is modelled by
  each detector returning the list of findings it appends, in order, and
  `generate_bias_report` concatenating them in the source's fixed
  detector order.  The one uncaught exception reachable inside a run
  (`combo_vc.iloc[0]` on an empty frame, in the intersectional check) is
  modelled with `Except`.
-/

/-- Column kind, as decided by `select_dtypes(include/exclude=np.number)`. -/
inductive ColKind where
  | numeric
  | categorical
deriving DecidableEq, Repr

/-- One DataFrame column: a name and its cells (`none` = NaN). -/
structure Col where
  name : String
  kind : ColKind
  cells : List (Option ℚ)
deriving DecidableEq, Repr

/-- A pandas DataFrame: row count plus the ordered list of columns. -/
structure DataFrame where
  nRows : ℕ
  cols : List Col
deriving DecidableEq, Repr

/-- Rectangularity and unique column names: the invariants pandas itself
maintains for the frames the detector receives (§6 of the spec: unique
normalized column names). -/
def DataFrame.WF (df : DataFrame) : Prop :=
  (df.cols.map (fun c => c.name)).Nodup ∧ ∀ c ∈ df.cols, c.cells.length = df.nRows

instance (df : DataFrame) : Decidable df.WF := by
  unfold DataFrame.WF; infer_instance

/-- `select_dtypes(include=np.number)` — the numeric columns, in order. -/
def numCols (df : DataFrame) : List Col :=
  df.cols.filter (fun c => c.kind = ColKind.numeric)

/-- `select_dtypes(exclude=np.number)` — the categorical columns, in order. -/
def catCols (df : DataFrame) : List Col :=
  df.cols.filter (fun c => c.kind = ColKind.categorical)

/-- One finding appended to `self.bias_report` — a dict with keys
Type / Feature / Description / Severity in the source. -/
structure Finding where
  ftype : String
  feature : String
  description : String
  severity : String
deriving DecidableEq, Repr

/-- The pure statistical primitives the source delegates to
numpy/scipy/sklearn, abstracted as functions (all deterministic: the one
randomized component, PCA, is pinned to `random_state=0` in the source). -/
structure StatsOracle where
  /-- `SKLEARN_AVAILABLE` -/
  sklearnAvailable : Bool
  /-- `PCA(n_components=0.95, random_state=0)` pipeline of
  `reduce_numeric_features_via_pca`: the reduced component columns. -/
  pca : DataFrame → List (String × List ℚ)
  /-- per-column `skew()` of the row-dropna-ed numeric sub-frame -/
  skewOf : List ℚ → ℚ
  /-- `chi2_contingency(table)[1]` — the p-value for a contingency table -/
  chi2p : List (List ℕ) → ℚ
  /-- Pearson `corr` of two paired series -/
  corrOf : List ℚ → List ℚ → ℚ
  /-- `-(vc * np.log2(vc + 1e-12)).sum()` on a normalized distribution -/
  entropyOf : List ℚ → ℚ

/-! ## Profiler: `MLBiasOptimizer` -/

/-- Values of a single numeric column after `df[num_cols].dropna()`
(drop every row that has a NaN in **any** numeric column). -/
def numDropnaCol (df : DataFrame) (c : Col) : List ℚ :=
  (List.range df.nRows).filterMap (fun i =>
    if (numCols df).all (fun c' => ((c'.cells.get? i).getD none).isSome)
    then (c.cells.get? i).getD none else none)

/-- `stats["mean_skew"] = float(np.nanmean(skews))` (0.0 when there are
no numeric columns). -/
def meanSkew (df : DataFrame) (o : StatsOracle) : ℚ :=
  let ncs := numCols df
  if ncs = [] then 0
  else ((ncs.map (fun c => o.skewOf (numDropnaCol df c))).sum) / ncs.length

/-- The `AdaptiveThresholds` record filled in by `_auto_thresholds`. -/
structure Thresholds where
  missing_warn : ℚ
  missing_high : ℚ
  corr_warn : ℚ
  corr_high : ℚ
  outlier_warn : ℚ
  outlier_high : ℚ
deriving DecidableEq, Repr

/-- `MLBiasOptimizer._auto_thresholds`, as a function of the three
statistics it reads: `stats["n_rows"]`, `stats["num_cols"]` and
`stats["mean_skew"]` (the source takes `abs` of the latter before
comparing with 1). -/
def autoThresholds (nRows numColCount : ℕ) (meanSk : ℚ) : Thresholds :=
  let mw : ℚ × ℚ :=
    if nRows < 200 then (0.05, 0.15)
    else if nRows < 2000 then (0.07, 0.2)
    else (0.1, 0.25)
  let baseCorr : ℚ := if 50 < numColCount then 0.5 else 0.4
  { missing_warn := mw.1
    missing_high := mw.2
    corr_warn := baseCorr
    corr_high := min 0.85 (baseCorr + 0.25)
    outlier_warn := 0.05
    outlier_high := if |meanSk| < 1 then 0.15 else 0.2 }

/-- The thresholds one analysis run uses: `_auto_thresholds` applied to
the row count, numeric-column count and mean skew of the snapshot. -/
def mkThresholds (df : DataFrame) (o : StatsOracle) : Thresholds :=
  autoThresholds df.nRows (numCols df).length (meanSkew df o)

/-- `reduce_numeric_features_via_pca`: `None` when sklearn is missing or
there are no numeric columns, otherwise the PCA component columns. -/
def reducedView (df : DataFrame) (o : StatsOracle) :
    Option (List (String × List ℚ)) :=
  if !o.sklearnAvailable || (numCols df).isEmpty then none
  else some (o.pca df)

/-! ## Reporter: `BiasReporter` -/

/-- The per-finding penalty inside `fairness_score`:
`10 if b.get("Severity", ...) == "High" else 5`. -/
def severityPenalty (f : Finding) : ℤ :=
  if f.severity = "High" then 10 else 5

/-- `BiasReporter.fairness_score` (source lines 432–436): 95 on an empty
report, otherwise `max(0, 100 - penalties)`. -/
def fairness_score (report : List Finding) : ℤ :=
  if report = [] then 95
  else max 0 (100 - (report.map severityPenalty).sum)

/-- Written from the words of the spec (§4.3), independently of the
source, for the C1 refinement theorem: 95 when the list is empty, and
otherwise 100 minus the sum over findings of a penalty of 10 for
Severity High and 5 for any other Severity, floored at 0. -/
def specFairnessScore (report : List Finding) : ℤ :=
  match report with
  | [] => 95
  | _ :: _ =>
      let total :=
        (report.map (fun f => if f.severity = "High" then (10 : ℤ) else 5)).sum
      max (100 - total) 0

/-! ## Shared statistical helpers (pandas/numpy primitives the source
uses, translated to exact rational arithmetic) -/

/-- `series.isna().mean()` for one column. -/
def missingRatio (c : Col) : ℚ :=
  ((c.cells.countP (fun x => x.isNone)) : ℚ) / c.cells.length

/-- Paired rows of two columns after dropping rows where either entry is
NaN (what `pd.crosstab` and `df[[a, b]].dropna()` operate on). -/
def pairedCells (a b : List (Option ℚ)) : List (ℚ × ℚ) :=
  (a.zip b).filterMap (fun p => p.1.bind (fun x => p.2.map (fun y => (x, y))))

/-- The contingency table of a paired sample, as the count matrix that
is handed to `chi2_contingency`.  (pandas sorts the axis labels; the
first-occurrence order used here only permutes rows/columns of the
matrix the p-value oracle receives.) -/
def crossCounts {α β : Type} [DecidableEq α] [DecidableEq β]
    (pairs : List (α × β)) : List (List ℕ) :=
  ((pairs.map Prod.fst).dedup).map (fun r =>
    ((pairs.map Prod.snd).dedup).map (fun cv => pairs.count (r, cv)))

/-- `series.std() > 0` on a (ddof = 1) sample: at least two entries and
not all equal, i.e. some entry differs from the first. -/
def hasPosStd : List ℚ → Bool
  | [] => false
  | x :: xs => xs.any (fun y => y != x)

/-- Largest element of a list of (nonnegative) rationals. -/
def maxQ (l : List ℚ) : ℚ := l.foldr max 0

/-- `value_counts(normalize=True)` of the non-NaN values: the share of
each distinct value.  (pandas sorts the shares descending; the claims
only use the largest share and the multiset handed to the entropy
oracle, so first-occurrence order is used here.) -/
def sharesOf (vals : List ℚ) : List ℚ :=
  vals.dedup.map (fun v => (vals.count v : ℚ) / vals.length)

/-- `value_counts(normalize=True).iloc[0]`: the dominant share. -/
def domShare (vals : List ℚ) : ℚ := maxQ (sharesOf vals)

/-- `value_counts(normalize=True).iloc[0]` of a combined-category
column: largest multiplicity over the list length. -/
def maxShare {α : Type} [DecidableEq α] (l : List α) : ℚ :=
  (((l.map (fun a => l.count a)).foldr max 0 : ℕ) : ℚ) / l.length

/-- Upper-triangle (`np.triu`, k = 1) pairs of a list, in the row-major
order `.stack()` produces. -/
def upperPairs {α : Type} : List α → List (α × α)
  | [] => []
  | x :: xs => xs.map (fun y => (x, y)) ++ upperPairs xs

/-- `np.percentile(l, q)` with the default linear interpolation. -/
def percentile (l : List ℚ) (q : ℚ) : ℚ :=
  let s := l.insertionSort (fun a b => a ≤ b)
  match s with
  | [] => 0
  | _ :: _ =>
    let pos : ℚ := ((s.length - 1 : ℕ) : ℚ) * q / 100
    let k : ℕ := pos.floor.toNat
    let frac : ℚ := pos - (k : ℚ)
    let lo := s.getD k 0
    let hi := s.getD (k + 1) lo
    lo + frac * (hi - lo)

/-- Arithmetic mean. -/
def meanQ (l : List ℚ) : ℚ := l.sum / l.length

/-- `series.nunique()`: distinct non-NaN values. -/
def nuniqueCells (cells : List (Option ℚ)) : ℕ :=
  (cells.filterMap id).dedup.length

/-- Non-NaN target values of the rows belonging to one group of the
`groupby(c)` partition (rows with NaN group key are dropped). -/
def groupVals (cCells tCells : List (Option ℚ)) (g : ℚ) : List ℚ :=
  (cCells.zip tCells).filterMap (fun p =>
    match p with
    | (some g', some tv) => if g' = g then some tv else none
    | _ => none)

/-- `groupby(c)[target].mean()`: one entry per distinct non-NaN group
value of `c`; the mean skips NaN target cells and is `none` (pandas
NaN) for a group with no target values.  (pandas sorts the group keys;
only the number of groups and the absolute difference of the two means
are ever used, both of which are order-independent.) -/
def groupMeans (cCells tCells : List (Option ℚ)) : List (ℚ × Option ℚ) :=
  ((cCells.filterMap id).dedup).map (fun g =>
    (g, if groupVals cCells tCells g = [] then none
        else some ((groupVals cCells tCells g).sum / (groupVals cCells tCells g).length)))

/-- Byte-wise prefix test on character lists. -/
def startsWithChars : List Char → List Char → Bool
  | [], _ => true
  | _ :: _, [] => false
  | a :: as, b :: bs => a == b && startsWithChars as bs

/-- Substring test (`needle in hay` on Python strings). -/
def hasSubChars : List Char → List Char → Bool
  | n, [] => n.isEmpty
  | n, b :: t => startsWithChars n (b :: t) || hasSubChars n t

/-- `k in s` for strings. -/
def strContains (s k : String) : Bool := hasSubChars k.toList s.toList

/-- Python `str.lower()` (character-wise; the column names here are
ASCII). -/
def lowerStr (s : String) : String := String.mk (s.toList.map Char.toLower)

/-! ## DetectionEngine: the five `BiasDetector.detect_*` methods -/

/-- The systematic-missingness part of `detect_missing_bias` for one
column `c`: for every categorical group column, `pd.crosstab(df[group],
df[c].isna())`, the shape guard, and the chi-squared test. -/
def sysMissBlock (df : DataFrame) (c : Col) (o : StatsOracle) : List Finding :=
  (catCols df).flatMap (fun g =>
    if g.name = c.name then []
    else
      let pairs : List (ℚ × Bool) :=
        (g.cells.zip c.cells).filterMap (fun p => p.1.map (fun gv => (gv, p.2.isNone)))
      let rowKeys := (pairs.map Prod.fst).dedup
      let colKeys := (pairs.map Prod.snd).dedup
      if 1 < rowKeys.length ∧ 1 < colKeys.length then
        let p := o.chi2p (crossCounts pairs)
        if p < 0.05 then
          [{ ftype := "Systematic Missingness"
             feature := c.name ++ " vs " ++ g.name
             description := "missing values depend on the group column"
             severity := if p < 0.01 then "High" else "Moderate" }]
        else []
      else [])

/-- The finding `detect_missing_bias` appends for a column whose
missing ratio exceeds `missing_warn`. -/
def missingFinding (c : Col) (t : Thresholds) : Finding :=
  { ftype := "Missing Data Bias"
    feature := c.name
    description := "missing values — possible sampling bias"
    severity := if missingRatio c > t.missing_high then "High" else "Moderate" }

/-- `BiasDetector.detect_missing_bias` (source lines 213–240): for every
column, the missing-ratio finding, then the systematic-missingness
tests against every categorical group column. -/
def detectMissingBias (df : DataFrame) (t : Thresholds) (o : StatsOracle) :
    List Finding :=
  df.cols.flatMap (fun c =>
    (if missingRatio c > t.missing_warn then [missingFinding c t] else []) ++
      sysMissBlock df c o)

/-- The per-column part of `detect_categorical_imbalance` (source lines
243–256): skip an empty `value_counts`, then the dominant-share /
entropy test. -/
def imbalanceFindings (df : DataFrame) (o : StatsOracle) : List Finding :=
  (catCols df).flatMap (fun c =>
    let vals := c.cells.filterMap id
    if vals = [] then []
    else
      let shares := sharesOf vals
      let ent := o.entropyOf shares
      let dom := maxQ shares
      if dom > 0.6 ∨ ent < 1 then
        [{ ftype := "Categorical Imbalance"
           feature := c.name
           description := "dominant category share with low entropy"
           severity := if dom > 0.75 then "High" else "Moderate" }]
      else [])

/-- The intersectional part of `detect_categorical_imbalance` (source
lines 259–270): adjacent categorical pairs; `combo_vc.iloc[0]` on an
empty frame raises (the one uncaught exception inside a run), modelled
as `Except.error`.  `astype(str)` turns NaN into the string "nan", so
`none` cells are ordinary (and equal) category labels here, which the
`Option ℚ × Option ℚ` pair values model. -/
def interFindings : List Col → Except String (List Finding)
  | a :: b :: rest =>
    let combo := a.cells.zip b.cells
    if combo = [] then Except.error "IndexError: single positional indexer is out-of-bounds"
    else
      let here :=
        if maxShare combo > 0.7 then
          [{ ftype := "Intersectional Bias"
             feature := a.name ++ " × " ++ b.name
             description := "one combination dominates the pair"
             severity := "High" }]
        else []
      match interFindings (b :: rest) with
      | Except.error e => Except.error e
      | Except.ok fs => Except.ok (here ++ fs)
  | _ => Except.ok []

/-- `BiasDetector.detect_categorical_imbalance`: per-column findings
followed by the intersectional pair findings. -/
def detectCategoricalImbalance (df : DataFrame) (o : StatsOracle) :
    Except String (List Finding) :=
  match interFindings (catCols df) with
  | Except.error e => Except.error e
  | Except.ok inter => Except.ok (imbalanceFindings df o ++ inter)

/-- The shared correlation-pair scan: upper-triangle pairs of the given
named columns, keep `|r| > corr_warn`, Severity High iff
`|r| > corr_high`. -/
def corrPairFindings (label : String) (colsData : List (String × List ℚ))
    (t : Thresholds) (o : StatsOracle) : List Finding :=
  (upperPairs colsData).filterMap (fun p =>
    let r := o.corrOf p.1.2 p.2.2
    if |r| > t.corr_warn then
      some { ftype := label
             feature := p.1.1 ++ " ↔ " ++ p.2.1
             description := "strong correlation"
             severity := if |r| > t.corr_high then "High" else "Moderate" }
    else none)

/-- `df[num_cols].dropna(axis=0)` then `loc[:, std > 0]`: the numeric
columns surviving the zero-variance filter, with their
complete-row values. -/
def origNumericPairsData (df : DataFrame) : List (String × List ℚ) :=
  ((numCols df).map (fun c => (c.name, numDropnaCol df c))).filter
    (fun p => hasPosStd p.2)

/-- The direct pairwise scan on the original numeric columns (the
fallback block of `detect_numeric_correlation`, also reused as the
"partial check on original columns" inside the PCA branch): nothing
unless at least two columns survive the filter. -/
def origPairFindings (df : DataFrame) (t : Thresholds) (o : StatsOracle) :
    List Finding :=
  let kept := origNumericPairsData df
  if kept.length < 2 then []
  else corrPairFindings "Numeric Correlation Bias" kept t o

/-- The placeholder appended when there are ≥ 200 numeric columns and no
reduced view (source lines 334–340); strings kept verbatim. -/
def skippedCorrFinding : Finding :=
  { ftype := "Numeric Correlation Bias"
    feature := "Skipped correlation (high-dim, no PCA)"
    description := "Too many numeric columns to do pairwise correlation quickly. Consider enabling sklearn for PCA pre-processing."
    severity := "Moderate" }

/-- `BiasDetector.detect_numeric_correlation` (source lines 272–340). -/
def detectNumericCorrelation (df : DataFrame) (t : Thresholds)
    (o : StatsOracle) (reduced : Option (List (String × List ℚ))) :
    List Finding :=
  match reduced with
  | some r =>
    if 1 < r.length then
      corrPairFindings "Numeric Correlation Bias (PCA)" r t o ++
        (if (numCols df).length < 200 then origPairFindings df t o else [])
    else
      if (numCols df).length < 200 then origPairFindings df t o
      else [skippedCorrFinding]
  | none =>
    if (numCols df).length < 200 then origPairFindings df t o
    else [skippedCorrFinding]

/-- `BiasDetector.detect_outlier_bias` (source lines 342–363): IQR fence
outlier fraction per numeric column. -/
def detectOutlierBias (df : DataFrame) (t : Thresholds) : List Finding :=
  (numCols df).filterMap (fun c =>
    let col := c.cells.filterMap id
    if col.dedup.length ≤ 10 then none
    else
      let q1 := percentile col 25
      let q3 := percentile col 75
      let iqr := q3 - q1
      if iqr = 0 then none
      else
        let lower := q1 - 3/2 * iqr
        let upper := q3 + 3/2 * iqr
        let ratio := ((col.filter (fun x => decide (x < lower ∨ upper < x))).length : ℚ) / col.length
        if ratio > t.outlier_warn then
          some { ftype := "Outlier Bias"
                 feature := c.name
                 description :=
                   if meanQ col > percentile col 50 then "right-skewed" else "left-skewed"
                 severity := if ratio > t.outlier_high then "High" else "Moderate" }
        else none)

/-- The substring keyword set of `_detect_target_column`. -/
def targetKeywords : List String :=
  ["target", "label", "outcome", "class", "disease", "result"]

/-- `BiasDetector._detect_target_column`: first column whose lowered
name contains a keyword. -/
def detectTarget (df : DataFrame) : Option Col :=
  df.cols.find? (fun c =>
    targetKeywords.any (fun k => strContains (lowerStr c.name) k))

/-- `abs(rates.iloc[0] - rates.iloc[1]) > 0.1` on a two-entry group-mean
series (the fairness-gap core of `detect_target_association`): the
comparison is false (NaN-propagating) unless both means are present. -/
def fdOfRates (c : Col) (rates : List (ℚ × Option ℚ)) : List Finding :=
  match rates with
  | [(_, some a), (_, some b)] =>
    if |a - b| > 0.1 then
      [{ ftype := "Fairness Disparity"
         feature := c.name
         description := "outcome gap between the two groups"
         severity := if |a - b| > 0.2 then "High" else "Moderate" }]
    else []
  | _ => []

/-- One categorical column against a categorical target (source lines
375–397): crosstab shape guard, chi-squared association, then — still
inside the shape guard — the binary fairness-gap test via `fdOfRates`
after the `len(rates) == 2` check. -/
def catTargetBlock (c tcol : Col) (o : StatsOracle) : List Finding :=
  let pairs := pairedCells c.cells tcol.cells
  let rowKeys := (pairs.map Prod.fst).dedup
  let colKeys := (pairs.map Prod.snd).dedup
  if 1 < rowKeys.length ∧ 1 < colKeys.length then
    let p := o.chi2p (crossCounts pairs)
    let ta :=
      if p < 0.05 then
        [{ ftype := "Target Association Bias"
           feature := c.name
           description := "associates with the target"
           severity := if p < 0.01 then "High" else "Moderate" }]
      else []
    let fd :=
      if nuniqueCells tcol.cells = 2 ∧ nuniqueCells c.cells = 2 then
        let rates := groupMeans c.cells tcol.cells
        if rates.length = 2 then fdOfRates c rates else []
      else []
    ta ++ fd
  else []

/-- One numeric column against a numeric target (source lines 400–415):
Pearson correlation on the paired non-missing rows; the
`pd.notna(corr)` guard is the positive-variance test on both series. -/
def numTargetBlock (c tcol : Col) (o : StatsOracle) : List Finding :=
  let pairs := pairedCells c.cells tcol.cells
  let xs := pairs.map Prod.fst
  let ys := pairs.map Prod.snd
  if hasPosStd xs ∧ hasPosStd ys then
    let r := o.corrOf xs ys
    if |r| > 0.3 then
      [{ ftype := "Target Correlation Bias"
         feature := c.name
         description := "correlated with the target"
         severity := if |r| > 0.5 then "High" else "Moderate" }]
    else []
  else []

/-- `BiasDetector.detect_target_association` (source lines 365–415). -/
def detectTargetAssociation (df : DataFrame) (tgt : Option Col)
    (o : StatsOracle) : List Finding :=
  match tgt with
  | none => []
  | some tcol =>
    if tcol.kind = ColKind.categorical then
      (catCols df).flatMap (fun c =>
        if c.name = tcol.name then [] else catTargetBlock c tcol o)
    else
      (numCols df).flatMap (fun c =>
        if c.name = tcol.name then [] else numTargetBlock c tcol o)

/-- `BiasDetector.generate_bias_report`: the five detectors in the fixed
source order, appending to one report; an uncaught exception aborts the
run before any report is returned. -/
def generateBiasReport (df : DataFrame) (o : StatsOracle) :
    Except String (List Finding) :=
  match detectCategoricalImbalance df o with
  | Except.error e => Except.error e
  | Except.ok catFindings =>
    Except.ok
      (detectMissingBias df (mkThresholds df o) o ++ catFindings ++
        detectNumericCorrelation df (mkThresholds df o) o (reducedView df o) ++
        detectOutlierBias df (mkThresholds df o) ++
        detectTargetAssociation df (detectTarget df) o)

/-- The exclusion handling of `BiasDetector.__init__` (source lines
187–193): filter the provided names to those present exactly or
case-insensitively, then `drop(columns=..., errors="ignore")` — which
removes a column only when its name **exactly** equals one of the
(unnormalized) provided names. -/
def dropExcluded (df : DataFrame) (excl : List String) : DataFrame :=
  let names := df.cols.map (fun c => c.name)
  let effective := excl.filter (fun c =>
    names.contains c || (names.map lowerStr).contains (lowerStr c))
  { df with cols := df.cols.filter (fun col => !(effective.contains col.name)) }

/-- One full analysis: construct the detector on the caller's snapshot
(dropping excluded columns), run the five detectors, and derive the
reporter's fairness score. -/
def runAnalysis (df : DataFrame) (excl : List String) (o : StatsOracle) :
    Except String (List Finding × ℤ) :=
  match generateBiasReport (dropExcluded df excl) o with
  | Except.error e => Except.error e
  | Except.ok rep => Except.ok (rep, fairness_score rep)

/-! ## Concrete instances used by witnesses and counterexamples -/

/-- A concrete stats oracle for evaluating the pipeline on small frames
(sklearn present, PCA yielding no components, zero skews/correlations,
p-value 1, entropy 2). -/
def defaultOracle : StatsOracle :=
  { sklearnAvailable := true
    pca := fun _ => []
    skewOf := fun _ => 0
    chi2p := fun _ => 1
    corrOf := fun _ _ => 0
    entropyOf := fun _ => 2 }

/-- A structurally invalid dataset: zero columns (`n` index rows). -/
def noColsDf (n : ℕ) : DataFrame := ⟨n, []⟩

/-- One-column frame whose name differs from an exclusion entry only in
case. -/
def genderDf : DataFrame := ⟨1, [⟨"Gender", ColKind.categorical, [some 0]⟩]⟩

/-- A frame with 200 numeric columns (the correlation-skip bound). -/
def manyNumDf : DataFrame := ⟨0, List.replicate 200 ⟨"x", ColKind.numeric, []⟩⟩

/-- Numeric column with one of two cells missing. -/
def missWitCol : Col := ⟨"a", ColKind.numeric, [some 1, none]⟩

/-- Two-row frame holding `missWitCol`. -/
def missWitDf : DataFrame := ⟨2, [missWitCol]⟩

/-- The finding the missing-data detector emits on `missWitDf`. -/
def missWitFinding : Finding :=
  { ftype := "Missing Data Bias", feature := "a"
    description := "missing values — possible sampling bias", severity := "High" }

/-- Fully dominated categorical column. -/
def imbWitCol : Col := ⟨"g", ColKind.categorical, [some 1, some 1, some 1]⟩

/-- Three-row frame holding `imbWitCol`. -/
def imbWitDf : DataFrame := ⟨3, [imbWitCol]⟩

/-- The finding the categorical-imbalance detector emits on `imbWitDf`. -/
def imbWitFinding : Finding :=
  { ftype := "Categorical Imbalance", feature := "g"
    description := "dominant category share with low entropy", severity := "High" }

/-- Binary sensitive column for the fairness-disparity witness. -/
def grpCol : Col := ⟨"grp", ColKind.categorical, [some 0, some 0, some 1, some 1]⟩

/-- Binary boolean-coded target column (name matches the "label"
keyword). -/
def labelCol : Col := ⟨"label", ColKind.categorical, [some 0, some 1, some 1, some 1]⟩

/-- Four-row frame with a binary group column and binary target. -/
def fairWitDf : DataFrame := ⟨4, [grpCol, labelCol]⟩

/-- Imbalance finding emitted for `labelCol` (dominant share 3/4). -/
def fairWitImb : Finding :=
  { ftype := "Categorical Imbalance", feature := "label"
    description := "dominant category share with low entropy", severity := "Moderate" }

/-- Fairness-disparity finding emitted for `grpCol` (gap 1/2). -/
def fairWitFd : Finding :=
  { ftype := "Fairness Disparity", feature := "grp"
    description := "outcome gap between the two groups", severity := "High" }

/-! ## Theorems -/

/-- C1: for every finding list given to the Reporter, `fairness_score()`
returns 95 when the list is empty, and otherwise 100 minus the sum over
findings of a penalty of 10 for Severity High and 5 for any other
Severity, floored at 0 (the spec-side formula `specFairnessScore`). -/
theorem C1_fairness_score_spec (report : List Finding) :
    fairness_score report = specFairnessScore report := by
  cases report with
  | nil => rfl
  | cons f t =>
    show max 0 _ = max _ 0
    exact max_comm 0 _

theorem fairness_penalty_ge (f : Finding) : 5 ≤ severityPenalty f := by
  unfold severityPenalty
  split <;> norm_num

theorem fairness_penalty_sum_nonneg (l : List Finding) :
    0 ≤ (l.map severityPenalty).sum := by
  induction l with
  | nil => simp
  | cons f t ih =>
    simp only [List.map_cons, List.sum_cons]
    have := fairness_penalty_ge f
    omega

theorem fairness_score_cons_le (f : Finding) (rest : List Finding) :
    fairness_score (f :: rest) ≤ 95 := by
  unfold fairness_score
  rw [if_neg (by simp)]
  simp only [List.map_cons, List.sum_cons]
  have h1 := fairness_penalty_ge f
  have h2 := fairness_penalty_sum_nonneg rest
  refine max_le (by norm_num) (by omega)

/-- C10: `fairness_score()` always returns an integer at most 95: the
empty list yields exactly 95, any non-empty list incurs a penalty of at
least 5, and 100 is never returned. -/
theorem C10_fairness_score_bounds (report : List Finding) :
    fairness_score report ≤ 95 ∧ fairness_score ([] : List Finding) = 95 ∧
    (∀ f rest, fairness_score (f :: rest) ≤ 95) ∧
    fairness_score report ≠ 100 := by
  have hle : fairness_score report ≤ 95 := by
    cases report with
    | nil => norm_num [fairness_score]
    | cons f t => exact fairness_score_cons_le f t
  exact ⟨hle, rfl, fairness_score_cons_le, by omega⟩

theorem autoThresholds_abs_congr (n k : ℕ) {s s' : ℚ} (h : |s| = |s'|) :
    autoThresholds n k s = autoThresholds n k s' := by
  unfold autoThresholds
  rw [h]

/-- C3: the adaptive thresholds computed once per analysis satisfy the
rule table — missingness bins by row count, `corr_warn` by
numeric-column count with `corr_high = min 0.85 (corr_warn + 0.25)`,
`outlier_warn = 0.05` and `outlier_high` 0.2 exactly when the absolute
mean skew is at least 1 — and depend only on row count, numeric-column
count and that absolute mean skew. -/
theorem C3_auto_thresholds (n k : ℕ) (s : ℚ) :
    ((n < 200 → (autoThresholds n k s).missing_warn = 0.05 ∧
        (autoThresholds n k s).missing_high = 0.15) ∧
     (200 ≤ n → n < 2000 → (autoThresholds n k s).missing_warn = 0.07 ∧
        (autoThresholds n k s).missing_high = 0.2) ∧
     (2000 ≤ n → (autoThresholds n k s).missing_warn = 0.1 ∧
        (autoThresholds n k s).missing_high = 0.25)) ∧
    (autoThresholds n k s).corr_warn = (if 50 < k then (0.5 : ℚ) else 0.4) ∧
    (autoThresholds n k s).corr_high
      = min 0.85 ((autoThresholds n k s).corr_warn + 0.25) ∧
    (autoThresholds n k s).outlier_warn = 0.05 ∧
    (autoThresholds n k s).outlier_high = (if 1 ≤ |s| then (0.2 : ℚ) else 0.15) ∧
    (∀ (df df' : DataFrame) (o o' : StatsOracle),
      df.nRows = df'.nRows → (numCols df).length = (numCols df').length →
      |meanSkew df o| = |meanSkew df' o'| →
      mkThresholds df o = mkThresholds df' o') := by
  refine ⟨⟨?_, ?_, ?_⟩, ?_, ?_, ?_, ?_, ?_⟩
  · intro h
    constructor <;> simp [autoThresholds, h]
  · intro h1 h2
    have hn : ¬ n < 200 := by omega
    constructor <;> simp [autoThresholds, hn, h2]
  · intro h
    have hn1 : ¬ n < 200 := by omega
    have hn2 : ¬ n < 2000 := by omega
    constructor <;> simp [autoThresholds, hn1, hn2]
  · rfl
  · rfl
  · rfl
  · rcases lt_or_le |s| 1 with h | h
    · have h2 : ¬ (1 : ℚ) ≤ |s| := not_le.mpr h
      simp [autoThresholds, h, h2]
    · have h2 : ¬ |s| < 1 := not_lt.mpr h
      simp [autoThresholds, h2, h]
  · intro df df' o o' h1 h2 h3
    unfold mkThresholds
    rw [h1, h2]
    exact autoThresholds_abs_congr _ _ h3

theorem C3_witness :
    (autoThresholds 100 10 0).missing_warn = 0.05 ∧
    mkThresholds (noColsDf 5) defaultOracle = mkThresholds (noColsDf 5) defaultOracle := by
  refine ⟨((C3_auto_thresholds 100 10 0).1.1 (by norm_num)).1, ?_⟩
  exact (C3_auto_thresholds 0 0 0).2.2.2.2.2 (noColsDf 5) (noColsDf 5)
    defaultOracle defaultOracle rfl rfl rfl

/-- C4: with no reduced numeric view, the correlation detector performs
the direct pairwise scan exactly when the numeric-column count is below
200; at 200 or more it emits only the single Moderate placeholder
finding announcing that the correlation check was skipped. -/
theorem C4_correlation_skip (df : DataFrame) (t : Thresholds) (o : StatsOracle) :
    ((numCols df).length < 200 →
        detectNumericCorrelation df t o none = origPairFindings df t o) ∧
    (200 ≤ (numCols df).length →
        detectNumericCorrelation df t o none = [skippedCorrFinding]) ∧
    skippedCorrFinding.severity = "Moderate" ∧
    skippedCorrFinding.ftype = "Numeric Correlation Bias" ∧
    skippedCorrFinding.description =
      "Too many numeric columns to do pairwise correlation quickly. Consider enabling sklearn for PCA pre-processing." := by
  refine ⟨?_, ?_, rfl, rfl, rfl⟩
  · intro h
    simp [detectNumericCorrelation, h]
  · intro h
    simp [detectNumericCorrelation, Nat.not_lt.mpr h]

theorem C4_witness :
    detectNumericCorrelation manyNumDf (autoThresholds 0 200 0) defaultOracle none
      = [skippedCorrFinding] := by
  refine (C4_correlation_skip manyNumDf _ defaultOracle).2.1 ?_
  have h : (numCols manyNumDf).length = 200 := by
    show ((List.replicate 200 (⟨"x", ColKind.numeric, []⟩ : Col)).filter
      (fun c => decide (c.kind = ColKind.numeric))).length = 200
    rw [List.filter_replicate_of_pos (by decide), List.length_replicate]
  omega

/-- C7: the claim that every column matching an exclusion entry
case-insensitively is dropped fails on the code: the `__init__` filter
accepts a lower-cased match, but the subsequent
`drop(columns=..., errors="ignore")` uses the provided (unnormalized)
name, so a column whose name differs in case survives.  Evaluated at the
failing input: column "Gender", exclusion list ["gender"]. -/
theorem C7_exclusion_not_case_insensitive :
    dropExcluded genderDf ["gender"] = genderDf ∧
    genderDf.cols.map (fun c => c.name) = ["Gender"] := by
  constructor
  · rfl
  · rfl

/-- C8 counterexample: a zero-row, zero-column dataset — structurally
invalid in the claim's sense — is analyzed to completion (an `ok`
result, empty findings, score 95) instead of raising before detection
begins. -/
theorem C8_counterexample_runs_to_completion :
    runAnalysis (noColsDf 0) [] defaultOracle = Except.ok ([], 95) := by
  rfl

/-- C8 (amended): the core performs no structural validation of its own;
a dataset with zero columns is analyzed to completion for every row
count and every oracle, yielding an empty finding list and score 95.
Rejection of structurally invalid input belongs to the excluded
validation collaborator. -/
theorem C8_no_validation_in_core (n : ℕ) (o : StatsOracle) :
    generateBiasReport (noColsDf n) o = Except.ok [] ∧
    runAnalysis (noColsDf n) [] o = Except.ok ([], 95) := by
  have hdrop : dropExcluded (noColsDf n) [] = noColsDf n := by
    simp [dropExcluded, noColsDf]
  have h1 : generateBiasReport (noColsDf n) o = Except.ok [] := by
    simp [generateBiasReport, noColsDf, detectCategoricalImbalance, interFindings,
      imbalanceFindings, catCols, numCols, detectMissingBias,
      detectNumericCorrelation, origPairFindings, origNumericPairsData,
      detectOutlierBias, detectTargetAssociation, detectTarget, reducedView]
  refine ⟨h1, ?_⟩
  rw [runAnalysis, hdrop, h1]
  rfl

/-- C9: two complete analysis runs on an identical dataset snapshot with
identical configuration (the oracle fixes all library randomness, as
`random_state=0` does in the source) produce identical ordered finding
lists and identical fairness scores. -/
theorem C9_determinism (df : DataFrame) (excl : List String) (o : StatsOracle) :
    runAnalysis df excl o = runAnalysis df excl o ∧
    (∀ rep₁ score₁ rep₂ score₂,
      runAnalysis df excl o = Except.ok (rep₁, score₁) →
      runAnalysis df excl o = Except.ok (rep₂, score₂) →
      rep₁ = rep₂ ∧ score₁ = score₂) := by
  refine ⟨rfl, ?_⟩
  intro rep₁ score₁ rep₂ score₂ h1 h2
  rw [h1] at h2
  injection h2 with h
  exact ⟨congrArg Prod.fst h, congrArg Prod.snd h⟩

theorem C9_witness : ([] : List Finding) = [] ∧ (95 : ℤ) = 95 :=
  (C9_determinism (noColsDf 1) [] defaultOracle).2 [] 95 [] 95 rfl rfl

theorem mem_ite_singleton {α : Type} {p : Prop} [Decidable p] {x f : α}
    (h : f ∈ if p then [x] else []) : p ∧ f = x := by
  by_cases hp : p
  · rw [if_pos hp] at h
    exact ⟨hp, List.mem_singleton.mp h⟩
  · rw [if_neg hp] at h
    cases h

theorem ite_singleton_mem {α : Type} {p : Prop} [Decidable p] (x : α)
    (hp : p) : x ∈ if p then [x] else [] := by
  rw [if_pos hp]
  exact List.mem_singleton.mpr rfl

theorem generateBiasReport_ok {df : DataFrame} {o : StatsOracle} {rep : List Finding}
    (h : generateBiasReport df o = Except.ok rep) :
    ∃ catf, detectCategoricalImbalance df o = Except.ok catf ∧
      rep = detectMissingBias df (mkThresholds df o) o ++ catf ++
        detectNumericCorrelation df (mkThresholds df o) o (reducedView df o) ++
        detectOutlierBias df (mkThresholds df o) ++
        detectTargetAssociation df (detectTarget df) o := by
  rw [generateBiasReport] at h
  cases hdc : detectCategoricalImbalance df o with
  | error e => rw [hdc] at h; cases h
  | ok catf =>
    rw [hdc] at h
    injection h with h
    exact ⟨catf, rfl, h.symm⟩

theorem detectCategoricalImbalance_ok {df : DataFrame} {o : StatsOracle}
    {catf : List Finding}
    (h : detectCategoricalImbalance df o = Except.ok catf) :
    ∃ inter, interFindings (catCols df) = Except.ok inter ∧
      catf = imbalanceFindings df o ++ inter := by
  rw [detectCategoricalImbalance] at h
  cases hdc : interFindings (catCols df) with
  | error e => rw [hdc] at h; cases h
  | ok inter =>
    rw [hdc] at h
    injection h with h
    exact ⟨inter, rfl, h.symm⟩

theorem ftype_of_mem_sysMissBlock {df : DataFrame} {c : Col} {o : StatsOracle}
    {f : Finding} (h : f ∈ sysMissBlock df c o) :
    f.ftype = "Systematic Missingness" := by
  simp only [sysMissBlock, List.mem_flatMap] at h
  obtain ⟨g, hg, hf⟩ := h
  split at hf
  · cases hf
  · split at hf
    · split at hf
      · rw [List.mem_singleton] at hf
        subst hf
        rfl
      · cases hf
    · cases hf

theorem mem_detectMissingBias {df : DataFrame} {t : Thresholds} {o : StatsOracle}
    {f : Finding} (h : f ∈ detectMissingBias df t o) :
    (∃ c ∈ df.cols, missingRatio c > t.missing_warn ∧ f = missingFinding c t) ∨
      f.ftype = "Systematic Missingness" := by
  simp only [detectMissingBias, List.mem_flatMap] at h
  obtain ⟨c, hc, hf⟩ := h
  rcases List.mem_append.mp hf with hf | hf
  · obtain ⟨hr, hfe⟩ := mem_ite_singleton hf
    exact Or.inl ⟨c, hc, hr, hfe⟩
  · exact Or.inr (ftype_of_mem_sysMissBlock hf)

theorem ftype_of_mem_imbalanceFindings {df : DataFrame} {o : StatsOracle}
    {f : Finding} (h : f ∈ imbalanceFindings df o) :
    f.ftype = "Categorical Imbalance" := by
  simp only [imbalanceFindings, List.mem_flatMap] at h
  obtain ⟨c, hc, hf⟩ := h
  split at hf
  · cases hf
  · split at hf
    · rw [List.mem_singleton] at hf
      subst hf
      rfl
    · cases hf

theorem ftype_of_mem_interFindings :
    ∀ (cs : List Col) (l : List Finding), interFindings cs = Except.ok l →
      ∀ f ∈ l, f.ftype = "Intersectional Bias" := by
  intro cs
  induction cs with
  | nil =>
    intro l h f hf
    simp only [interFindings, Except.ok.injEq] at h
    subst h
    cases hf
  | cons a rest ih =>
    cases rest with
    | nil =>
      intro l h f hf
      simp only [interFindings, Except.ok.injEq] at h
      subst h
      cases hf
    | cons b rest2 =>
      intro l h f hf
      rw [interFindings] at h
      split at h
      · cases h
      · cases hrec : interFindings (b :: rest2) with
        | error e => rw [hrec] at h; cases h
        | ok fs =>
          rw [hrec] at h
          injection h with h
          subst h
          rcases List.mem_append.mp hf with hf | hf
          · obtain ⟨_, hfe⟩ := mem_ite_singleton hf
            subst hfe
            rfl
          · exact ih fs hrec f hf

theorem ftype_of_mem_corrPairFindings {label : String}
    {colsData : List (String × List ℚ)} {t : Thresholds} {o : StatsOracle}
    {f : Finding} (h : f ∈ corrPairFindings label colsData t o) :
    f.ftype = label := by
  simp only [corrPairFindings, List.mem_filterMap] at h
  obtain ⟨p, hp, hf⟩ := h
  split at hf
  · injection hf with hf
    subst hf
    rfl
  · cases hf

theorem ftype_of_mem_origPairFindings {df : DataFrame} {t : Thresholds}
    {o : StatsOracle} {f : Finding} (h : f ∈ origPairFindings df t o) :
    f.ftype = "Numeric Correlation Bias" := by
  rw [origPairFindings] at h
  split at h
  · cases h
  · exact ftype_of_mem_corrPairFindings h

theorem ftype_of_mem_detectNumericCorrelation {df : DataFrame} {t : Thresholds}
    {o : StatsOracle} {red : Option (List (String × List ℚ))} {f : Finding}
    (h : f ∈ detectNumericCorrelation df t o red) :
    f.ftype = "Numeric Correlation Bias (PCA)" ∨
      f.ftype = "Numeric Correlation Bias" := by
  rcases red with _ | r
  all_goals simp only [detectNumericCorrelation] at h
  · split at h
    · exact Or.inr (ftype_of_mem_origPairFindings h)
    · rw [List.mem_singleton] at h
      subst h
      exact Or.inr rfl
  · split at h
    · rcases List.mem_append.mp h with h | h
      · exact Or.inl (ftype_of_mem_corrPairFindings h)
      · split at h
        · exact Or.inr (ftype_of_mem_origPairFindings h)
        · cases h
    · split at h
      · exact Or.inr (ftype_of_mem_origPairFindings h)
      · rw [List.mem_singleton] at h
        subst h
        exact Or.inr rfl

theorem ftype_of_mem_detectOutlierBias {df : DataFrame} {t : Thresholds}
    {f : Finding} (h : f ∈ detectOutlierBias df t) :
    f.ftype = "Outlier Bias" := by
  simp only [detectOutlierBias, List.mem_filterMap] at h
  obtain ⟨c, hc, hf⟩ := h
  split at hf
  · cases hf
  · split at hf
    · cases hf
    · split at hf
      · injection hf with hf
        subst hf
        rfl
      · cases hf

theorem ftype_of_mem_fdOfRates {c : Col} {rates : List (ℚ × Option ℚ)}
    {f : Finding} (h : f ∈ fdOfRates c rates) :
    f.ftype = "Fairness Disparity" := by
  unfold fdOfRates at h
  split at h
  · split at h
    · rw [List.mem_singleton] at h
      subst h
      rfl
    · cases h
  · cases h

theorem ftype_of_mem_catTargetBlock {c tcol : Col} {o : StatsOracle} {f : Finding}
    (h : f ∈ catTargetBlock c tcol o) :
    f.ftype = "Target Association Bias" ∨ f.ftype = "Fairness Disparity" := by
  simp only [catTargetBlock] at h
  split at h
  · rcases List.mem_append.mp h with h | h
    · obtain ⟨_, hfe⟩ := mem_ite_singleton h
      subst hfe
      exact Or.inl rfl
    · split at h
      · split at h
        · exact Or.inr (ftype_of_mem_fdOfRates h)
        · cases h
      · cases h
  · cases h

theorem ftype_of_mem_numTargetBlock {c tcol : Col} {o : StatsOracle} {f : Finding}
    (h : f ∈ numTargetBlock c tcol o) :
    f.ftype = "Target Correlation Bias" := by
  simp only [numTargetBlock] at h
  split at h
  · split at h
    · rw [List.mem_singleton] at h
      subst h
      rfl
    · cases h
  · cases h

theorem ftype_of_mem_detectTargetAssociation {df : DataFrame} {tgt : Option Col}
    {o : StatsOracle} {f : Finding}
    (h : f ∈ detectTargetAssociation df tgt o) :
    f.ftype = "Target Association Bias" ∨ f.ftype = "Fairness Disparity" ∨
      f.ftype = "Target Correlation Bias" := by
  rcases tgt with _ | tcol
  all_goals simp only [detectTargetAssociation] at h
  · cases h
  · split at h
    · simp only [List.mem_flatMap] at h
      obtain ⟨c, hc, hf⟩ := h
      split at hf
      · cases hf
      · rcases ftype_of_mem_catTargetBlock hf with h1 | h1
        · exact Or.inl h1
        · exact Or.inr (Or.inl h1)
    · simp only [List.mem_flatMap] at h
      obtain ⟨c, hc, hf⟩ := h
      split at hf
      · cases hf
      · exact Or.inr (Or.inr (ftype_of_mem_numTargetBlock hf))

theorem col_eq_of_name_eq {df : DataFrame} (hwf : df.WF) {a b : Col}
    (ha : a ∈ df.cols) (hb : b ∈ df.cols) (h : a.name = b.name) : a = b :=
  List.inj_on_of_nodup_map hwf.1 ha hb h

/-- C2: after one analysis run, a Missing Data Bias finding for a column
exists in the report iff that column's missing ratio exceeds
`missing_warn`, and any such finding has Severity High iff the ratio
exceeds `missing_high` (else Moderate). -/
theorem C2_missing_findings (df : DataFrame) (o : StatsOracle) (rep : List Finding)
    (hwf : df.WF) (hrun : generateBiasReport df o = Except.ok rep)
    (c : Col) (hc : c ∈ df.cols) :
    ((∃ f ∈ rep, f.ftype = "Missing Data Bias" ∧ f.feature = c.name) ↔
        missingRatio c > (mkThresholds df o).missing_warn) ∧
    (∀ f ∈ rep, f.ftype = "Missing Data Bias" → f.feature = c.name →
        (f.severity = "High" ↔ missingRatio c > (mkThresholds df o).missing_high)) := by
  obtain ⟨catf, hcat, hrep⟩ := generateBiasReport_ok hrun
  obtain ⟨inter, hint, hcatf⟩ := detectCategoricalImbalance_ok hcat
  have key : ∀ f ∈ rep, f.ftype = "Missing Data Bias" → f.feature = c.name →
      missingRatio c > (mkThresholds df o).missing_warn ∧
        f = missingFinding c (mkThresholds df o) := by
    intro f hf hty hfeat
    rw [hrep] at hf
    rcases List.mem_append.mp hf with hf | hta
    · rcases List.mem_append.mp hf with hf | hout
      · rcases List.mem_append.mp hf with hf | hcorr
        · rcases List.mem_append.mp hf with hm | hcf
          · rcases mem_detectMissingBias hm with ⟨c', hc', hr, hfe⟩ | hsys
            · have hname : c'.name = c.name := by
                rw [hfe] at hfeat
                exact hfeat
              have hcc : c' = c := col_eq_of_name_eq hwf hc' hc hname
              subst hcc
              exact ⟨hr, hfe⟩
            · exact absurd (hsys.symm.trans hty) (by decide)
          · rw [hcatf] at hcf
            rcases List.mem_append.mp hcf with hcf | hcf
            · exact absurd ((ftype_of_mem_imbalanceFindings hcf).symm.trans hty) (by decide)
            · exact absurd ((ftype_of_mem_interFindings _ _ hint f hcf).symm.trans hty) (by decide)
        · rcases ftype_of_mem_detectNumericCorrelation hcorr with h1 | h1 <;>
            exact absurd (h1.symm.trans hty) (by decide)
      · exact absurd ((ftype_of_mem_detectOutlierBias hout).symm.trans hty) (by decide)
    · rcases ftype_of_mem_detectTargetAssociation hta with h1 | h1 | h1 <;>
        exact absurd (h1.symm.trans hty) (by decide)
  constructor
  · constructor
    · rintro ⟨f, hf, hty, hfeat⟩
      exact (key f hf hty hfeat).1
    · intro hr
      refine ⟨missingFinding c (mkThresholds df o), ?_, rfl, rfl⟩
      have hm : missingFinding c (mkThresholds df o) ∈
          detectMissingBias df (mkThresholds df o) o := by
        refine List.mem_flatMap.mpr ⟨c, hc, ?_⟩
        refine List.mem_append.mpr (Or.inl ?_)
        exact ite_singleton_mem _ hr
      rw [hrep]
      exact List.mem_append.mpr (Or.inl (List.mem_append.mpr (Or.inl
        (List.mem_append.mpr (Or.inl (List.mem_append.mpr (Or.inl hm)))))))
  · intro f hf hty hfeat
    obtain ⟨hr, hfe⟩ := key f hf hty hfeat
    subst hfe
    show (if missingRatio c > (mkThresholds df o).missing_high
        then "High" else "Moderate") = "High" ↔ _
    by_cases hh : missingRatio c > (mkThresholds df o).missing_high
    · rw [if_pos hh]
      exact ⟨fun _ => hh, fun _ => rfl⟩
    · rw [if_neg hh]
      exact ⟨fun hcontra => absurd hcontra (by decide), fun hcontra => absurd hcontra hh⟩

theorem missWit_thresholds :
    mkThresholds missWitDf defaultOracle = ⟨1/20, 3/20, 2/5, 13/20, 1/20, 3/20⟩ := by
  norm_num [mkThresholds, missWitDf, missWitCol, autoThresholds, meanSkew, numCols,
    numDropnaCol, defaultOracle]

theorem missWit_ratio : missingRatio missWitCol = 1/2 := by
  norm_num [missingRatio, missWitCol]

theorem missWit_run :
    generateBiasReport missWitDf defaultOracle = Except.ok [missWitFinding] := by
  have hcat : detectCategoricalImbalance missWitDf defaultOracle = Except.ok [] := by
    norm_num [detectCategoricalImbalance, interFindings, imbalanceFindings, catCols,
      missWitDf, missWitCol]
    intro h
    exact absurd h (by decide)
  have hmiss : detectMissingBias missWitDf (mkThresholds missWitDf defaultOracle)
      defaultOracle = [missWitFinding] := by
    rw [missWit_thresholds]
    norm_num [detectMissingBias, missWitDf, missWitCol, sysMissBlock, catCols,
      missingFinding, missingRatio, missWitFinding]
  have hred : reducedView missWitDf defaultOracle = some [] := by
    norm_num [reducedView, defaultOracle, numCols, missWitDf, missWitCol]
  have hcorr : detectNumericCorrelation missWitDf (mkThresholds missWitDf defaultOracle)
      defaultOracle (some []) = [] := by
    norm_num [detectNumericCorrelation, origPairFindings, origNumericPairsData,
      numCols, missWitDf, missWitCol, numDropnaCol, hasPosStd, List.range_succ,
      List.range_zero, List.filterMap_cons, List.filterMap_nil]
  have hout : detectOutlierBias missWitDf (mkThresholds missWitDf defaultOracle) = [] := by
    norm_num [detectOutlierBias, numCols, missWitDf, missWitCol, List.filterMap_cons,
      List.filterMap_nil, List.dedup_cons_of_not_mem, List.dedup_nil]
  have htgt : detectTarget missWitDf = none := by
    norm_num [detectTarget, missWitDf, missWitCol, targetKeywords, strContains,
      lowerStr, hasSubChars, startsWithChars]
  rw [generateBiasReport, hcat]
  rw [hred, hmiss, hcorr, hout, htgt]
  rfl

theorem C2_witness :
    (∃ f ∈ [missWitFinding], f.ftype = "Missing Data Bias" ∧ f.feature = "a") ∧
    missingRatio missWitCol > (mkThresholds missWitDf defaultOracle).missing_warn := by
  have hr : missingRatio missWitCol > (mkThresholds missWitDf defaultOracle).missing_warn := by
    rw [missWit_ratio, missWit_thresholds]
    norm_num
  have h := C2_missing_findings missWitDf defaultOracle [missWitFinding]
    (by decide) missWit_run missWitCol (by decide)
  exact ⟨(h.1).mpr hr, hr⟩

theorem imbalance_mem {df : DataFrame} {o : StatsOracle} {c : Col}
    (hc : c ∈ catCols df)
    (hne : ¬ c.cells.filterMap id = [])
    (hcond : maxQ (sharesOf (c.cells.filterMap id)) > 0.6 ∨
      o.entropyOf (sharesOf (c.cells.filterMap id)) < 1) :
    ({ ftype := "Categorical Imbalance", feature := c.name
       description := "dominant category share with low entropy"
       severity := if maxQ (sharesOf (c.cells.filterMap id)) > 0.75
         then "High" else "Moderate" } : Finding) ∈ imbalanceFindings df o := by
  refine List.mem_flatMap.mpr ⟨c, hc, ?_⟩
  simp only [if_neg hne]
  exact ite_singleton_mem _ hcond

/-- C5: every categorical column whose value distribution has dominant
share above 0.6 or (code-computed) entropy below 1 receives a
Categorical Imbalance finding in the report, with Severity High iff the
dominant share exceeds 0.75.  (The non-empty-distribution hypothesis is
the §6 input contract: no fully-empty columns.) -/
theorem C5_categorical_imbalance (df : DataFrame) (o : StatsOracle) (rep : List Finding)
    (hrun : generateBiasReport df o = Except.ok rep)
    (c : Col) (hc : c ∈ catCols df)
    (hne : ¬ c.cells.filterMap id = [])
    (hcond : maxQ (sharesOf (c.cells.filterMap id)) > 0.6 ∨
      o.entropyOf (sharesOf (c.cells.filterMap id)) < 1) :
    ∃ f ∈ rep, f.ftype = "Categorical Imbalance" ∧ f.feature = c.name ∧
      (f.severity = "High" ↔ maxQ (sharesOf (c.cells.filterMap id)) > 0.75) := by
  obtain ⟨catf, hcat, hrep⟩ := generateBiasReport_ok hrun
  obtain ⟨inter, hint, hcatf⟩ := detectCategoricalImbalance_ok hcat
  refine ⟨{ ftype := "Categorical Imbalance", feature := c.name
            description := "dominant category share with low entropy"
            severity := if maxQ (sharesOf (c.cells.filterMap id)) > 0.75
              then "High" else "Moderate" }, ?_, rfl, rfl, ?_⟩
  · rw [hrep, hcatf]
    have hmem : _ ∈ imbalanceFindings df o := imbalance_mem hc hne hcond
    exact List.mem_append.mpr (Or.inl (List.mem_append.mpr (Or.inl
      (List.mem_append.mpr (Or.inl (List.mem_append.mpr (Or.inr
        (List.mem_append.mpr (Or.inl hmem)))))))))
  · show (if maxQ (sharesOf (c.cells.filterMap id)) > 0.75
        then "High" else "Moderate") = "High" ↔ _
    by_cases hh : maxQ (sharesOf (c.cells.filterMap id)) > 0.75
    · rw [if_pos hh]
      exact ⟨fun _ => hh, fun _ => rfl⟩
    · rw [if_neg hh]
      exact ⟨fun hcontra => absurd hcontra (by decide), fun hcontra => absurd hcontra hh⟩

theorem imbWit_thresholds :
    mkThresholds imbWitDf defaultOracle = ⟨1/20, 3/20, 2/5, 13/20, 1/20, 3/20⟩ := by
  norm_num +decide [mkThresholds, imbWitDf, imbWitCol, autoThresholds, meanSkew, numCols,
    defaultOracle, List.filter_cons, List.filter_nil]

theorem imbWit_run :
    generateBiasReport imbWitDf defaultOracle = Except.ok [imbWitFinding] := by
  have hcat : detectCategoricalImbalance imbWitDf defaultOracle
      = Except.ok [imbWitFinding] := by
    norm_num +decide [detectCategoricalImbalance, interFindings, imbalanceFindings,
      catCols, imbWitDf, imbWitCol, imbWitFinding, defaultOracle, sharesOf, maxQ,
      List.filterMap_cons, List.filterMap_nil, List.dedup_cons_of_mem,
      List.dedup_cons_of_not_mem, List.dedup_nil, max_def,
      List.filter_cons, List.filter_nil, List.count_cons, List.count_nil]
  have hmiss : detectMissingBias imbWitDf (mkThresholds imbWitDf defaultOracle)
      defaultOracle = [] := by
    rw [imbWit_thresholds]
    norm_num +decide [detectMissingBias, imbWitDf, imbWitCol, sysMissBlock, catCols,
      missingRatio, List.filter_cons, List.filter_nil, List.countP_cons, List.countP_nil]
  have hred : reducedView imbWitDf defaultOracle = none := by
    norm_num +decide [reducedView, defaultOracle, numCols, imbWitDf, imbWitCol,
      List.filter_cons, List.filter_nil]
  have hcorr : detectNumericCorrelation imbWitDf (mkThresholds imbWitDf defaultOracle)
      defaultOracle none = [] := by
    norm_num +decide [detectNumericCorrelation, origPairFindings, origNumericPairsData,
      numCols, imbWitDf, imbWitCol, List.filter_cons, List.filter_nil]
  have hout : detectOutlierBias imbWitDf (mkThresholds imbWitDf defaultOracle) = [] := by
    norm_num +decide [detectOutlierBias, numCols, imbWitDf, imbWitCol,
      List.filter_cons, List.filter_nil]
  have htgt : detectTarget imbWitDf = none := by
    norm_num [detectTarget, imbWitDf, imbWitCol, targetKeywords, strContains,
      lowerStr, hasSubChars, startsWithChars]
  rw [generateBiasReport, hcat]
  rw [hred, hmiss, hcorr, hout, htgt]
  rfl

theorem C5_witness :
    ∃ f ∈ [imbWitFinding], f.ftype = "Categorical Imbalance" ∧ f.feature = "g" ∧
      (f.severity = "High" ↔ maxQ (sharesOf (imbWitCol.cells.filterMap id)) > 0.75) := by
  refine C5_categorical_imbalance imbWitDf defaultOracle [imbWitFinding] imbWit_run
    imbWitCol (by decide) (by decide) ?_
  left
  norm_num [imbWitCol, sharesOf, maxQ, List.filterMap_cons, List.filterMap_nil,
    List.dedup_cons_of_mem, List.dedup_cons_of_not_mem, List.dedup_nil, max_def]

theorem two_le_length_of_mem_ne {α : Type} {l : List α} {a b : α}
    (ha : a ∈ l) (hb : b ∈ l) (hab : a ≠ b) : 2 ≤ l.length := by
  cases l with
  | nil => cases ha
  | cons x xs =>
    cases xs with
    | nil =>
      rw [List.mem_singleton] at ha hb
      exact absurd (ha.trans hb.symm) hab
    | cons y ys =>
      simp only [List.length_cons]
      omega

theorem all_eq_of_dedup_length_le_one {α : Type} [DecidableEq α] {l : List α}
    (h : l.dedup.length ≤ 1) {a b : α} (ha : a ∈ l) (hb : b ∈ l) : a = b := by
  have ha2 : a ∈ l.dedup := List.mem_dedup.mpr ha
  have hb2 : b ∈ l.dedup := List.mem_dedup.mpr hb
  cases hd : l.dedup with
  | nil =>
    rw [hd] at ha2
    cases ha2
  | cons x xs =>
    cases xs with
    | nil =>
      rw [hd] at ha2 hb2
      rw [List.mem_singleton] at ha2 hb2
      exact ha2.trans hb2.symm
    | cons y ys =>
      rw [hd] at h
      simp only [List.length_cons] at h
      omega

theorem const_mean {l : List ℚ} {v : ℚ} (hne : l ≠ []) (h : ∀ x ∈ l, x = v) :
    l.sum / (l.length : ℚ) = v := by
  have hs : l.sum = l.length • v := List.sum_eq_card_nsmul l v h
  have hl : (l.length : ℚ) ≠ 0 :=
    Nat.cast_ne_zero.mpr (List.length_pos.mpr hne).ne'
  rw [hs, nsmul_eq_mul, mul_comm, mul_div_assoc, div_self hl, mul_one]

theorem groupMeans_two {cC tC : List (Option ℚ)} {g₁ g₂ m₁ m₂ : ℚ}
    (hgm : groupMeans cC tC = [(g₁, some m₁), (g₂, some m₂)]) :
    (cC.filterMap id).dedup = [g₁, g₂] ∧ g₁ ≠ g₂ ∧
      groupVals cC tC g₁ ≠ [] ∧ groupVals cC tC g₂ ≠ [] ∧
      (groupVals cC tC g₁).sum / ((groupVals cC tC g₁).length : ℚ) = m₁ ∧
      (groupVals cC tC g₂).sum / ((groupVals cC tC g₂).length : ℚ) = m₂ := by
  have hkeys : (cC.filterMap id).dedup = [g₁, g₂] := by
    have hmap := congrArg (List.map Prod.fst) hgm
    simp only [groupMeans, List.map_map, Function.comp_def, List.map_cons,
      List.map_nil] at hmap
    simpa using hmap
  have hnodup : (cC.filterMap id).dedup.Nodup := List.nodup_dedup _
  rw [hkeys] at hnodup
  have hg12 : g₁ ≠ g₂ := by
    rw [List.nodup_cons] at hnodup
    intro he
    exact hnodup.1 (he ▸ List.mem_singleton.mpr rfl)
  rw [groupMeans, hkeys] at hgm
  simp only [List.map_cons, List.map_nil, List.cons.injEq, Prod.mk.injEq,
    true_and, and_true] at hgm
  obtain ⟨h1, h2⟩ := hgm
  have hv1 : groupVals cC tC g₁ ≠ [] := by
    intro hv
    rw [if_pos hv] at h1
    cases h1
  have hv2 : groupVals cC tC g₂ ≠ [] := by
    intro hv
    rw [if_pos hv] at h2
    cases h2
  rw [if_neg hv1] at h1
  rw [if_neg hv2] at h2
  injection h1 with h1
  injection h2 with h2
  exact ⟨hkeys, hg12, hv1, hv2, h1, h2⟩

theorem mem_paired_of_mem_groupVals {cC tC : List (Option ℚ)} {g x : ℚ}
    (hx : x ∈ groupVals cC tC g) : (g, x) ∈ pairedCells cC tC := by
  simp only [groupVals, List.mem_filterMap] at hx
  obtain ⟨⟨pc, pt⟩, hp, hfx⟩ := hx
  cases pc with
  | none =>
    cases pt with
    | none => exact Option.noConfusion (show (none : Option ℚ) = some x from hfx)
    | some tv => exact Option.noConfusion (show (none : Option ℚ) = some x from hfx)
  | some gv =>
    cases pt with
    | none => exact Option.noConfusion (show (none : Option ℚ) = some x from hfx)
    | some tv =>
      have hfx2 : (if gv = g then some tv else none) = some x := hfx
      by_cases hgg : gv = g
      · rw [if_pos hgg] at hfx2
        injection hfx2 with htv
        refine List.mem_filterMap.mpr ⟨(some gv, some tv), hp, ?_⟩
        show some (gv, tv) = some (g, x)
        rw [hgg, htv]
      · rw [if_neg hgg] at hfx2
        cases hfx2

/-- C6: with a categorical (boolean-coded) inferred target, every other
binary categorical column whose two group means of the target are both
defined and differ by more than 0.1 receives a Fairness Disparity
finding in the report, with Severity High iff the gap exceeds 0.2. -/
theorem C6_fairness_disparity (df : DataFrame) (o : StatsOracle) (rep : List Finding)
    (hrun : generateBiasReport df o = Except.ok rep)
    (tcol : Col) (htgt : detectTarget df = some tcol)
    (hkind : tcol.kind = ColKind.categorical)
    (c : Col) (hc : c ∈ catCols df) (hcn : ¬ c.name = tcol.name)
    (htu : nuniqueCells tcol.cells = 2)
    (g₁ g₂ m₁ m₂ : ℚ)
    (hgm : groupMeans c.cells tcol.cells = [(g₁, some m₁), (g₂, some m₂)])
    (hd : |m₁ - m₂| > 0.1) :
    ∃ f ∈ rep, f.ftype = "Fairness Disparity" ∧ f.feature = c.name ∧
      (f.severity = "High" ↔ |m₁ - m₂| > 0.2) := by
  obtain ⟨hkeys, hg12, hv1ne, hv2ne, hm1, hm2⟩ := groupMeans_two hgm
  have hcu : nuniqueCells c.cells = 2 := by
    rw [nuniqueCells, hkeys]
    rfl
  obtain ⟨t1, ht1⟩ := List.exists_mem_of_ne_nil _ hv1ne
  obtain ⟨t2, ht2⟩ := List.exists_mem_of_ne_nil _ hv2ne
  have hp1 : (g₁, t1) ∈ pairedCells c.cells tcol.cells :=
    mem_paired_of_mem_groupVals ht1
  have hp2 : (g₂, t2) ∈ pairedCells c.cells tcol.cells :=
    mem_paired_of_mem_groupVals ht2
  have hrow : 1 < ((pairedCells c.cells tcol.cells).map Prod.fst).dedup.length := by
    have h1 : g₁ ∈ ((pairedCells c.cells tcol.cells).map Prod.fst).dedup :=
      List.mem_dedup.mpr (List.mem_map.mpr ⟨(g₁, t1), hp1, rfl⟩)
    have h2 : g₂ ∈ ((pairedCells c.cells tcol.cells).map Prod.fst).dedup :=
      List.mem_dedup.mpr (List.mem_map.mpr ⟨(g₂, t2), hp2, rfl⟩)
    have := two_le_length_of_mem_ne h1 h2 hg12
    omega
  have hcol : 1 < ((pairedCells c.cells tcol.cells).map Prod.snd).dedup.length := by
    by_contra hle
    rw [Nat.not_lt] at hle
    have hall : ∀ x ∈ (pairedCells c.cells tcol.cells).map Prod.snd, x = t1 := by
      intro x hx
      exact all_eq_of_dedup_length_le_one hle hx
        (List.mem_map.mpr ⟨(g₁, t1), hp1, rfl⟩)
    have hml : m₁ = t1 := by
      rw [← hm1]
      refine const_mean hv1ne ?_
      intro x hx
      exact hall x (List.mem_map.mpr ⟨(g₁, x), mem_paired_of_mem_groupVals hx, rfl⟩)
    have hm2t : m₂ = t1 := by
      rw [← hm2]
      refine const_mean hv2ne ?_
      intro x hx
      exact hall x (List.mem_map.mpr ⟨(g₂, x), mem_paired_of_mem_groupVals hx, rfl⟩)
    rw [hml, hm2t] at hd
    norm_num [sub_self] at hd
  have hlen2 : (groupMeans c.cells tcol.cells).length = 2 := by
    rw [hgm]
    rfl
  have hfd : ({ ftype := "Fairness Disparity", feature := c.name
                description := "outcome gap between the two groups"
                severity := if |m₁ - m₂| > 0.2 then "High" else "Moderate" } : Finding)
      ∈ catTargetBlock c tcol o := by
    simp only [catTargetBlock]
    rw [if_pos ⟨hrow, hcol⟩]
    refine List.mem_append.mpr (Or.inr ?_)
    rw [if_pos ⟨htu, hcu⟩, if_pos hlen2, hgm]
    have hfr : fdOfRates c [(g₁, some m₁), (g₂, some m₂)] =
        [{ ftype := "Fairness Disparity", feature := c.name
           description := "outcome gap between the two groups"
           severity := if |m₁ - m₂| > 0.2 then "High" else "Moderate" }] := by
      simp only [fdOfRates]
      rw [if_pos hd]
    rw [hfr]
    exact List.mem_singleton.mpr rfl
  have hta : ({ ftype := "Fairness Disparity", feature := c.name
                description := "outcome gap between the two groups"
                severity := if |m₁ - m₂| > 0.2 then "High" else "Moderate" } : Finding)
      ∈ detectTargetAssociation df (detectTarget df) o := by
    rw [htgt]
    simp only [detectTargetAssociation]
    rw [if_pos hkind]
    refine List.mem_flatMap.mpr ⟨c, hc, ?_⟩
    simp only [if_neg hcn]
    exact hfd
  obtain ⟨catf, hcat, hrep⟩ := generateBiasReport_ok hrun
  refine ⟨{ ftype := "Fairness Disparity", feature := c.name
            description := "outcome gap between the two groups"
            severity := if |m₁ - m₂| > 0.2 then "High" else "Moderate" }, ?_, rfl, rfl, ?_⟩
  · rw [hrep]
    exact List.mem_append.mpr (Or.inr hta)
  · show (if |m₁ - m₂| > 0.2 then "High" else "Moderate") = "High" ↔ _
    by_cases hh : |m₁ - m₂| > 0.2
    · rw [if_pos hh]
      exact ⟨fun _ => hh, fun _ => rfl⟩
    · rw [if_neg hh]
      exact ⟨fun hcontra => absurd hcontra (by decide), fun hcontra => absurd hcontra hh⟩

theorem fairWit_thresholds :
    mkThresholds fairWitDf defaultOracle = ⟨1/20, 3/20, 2/5, 13/20, 1/20, 3/20⟩ := by
  norm_num +decide [mkThresholds, fairWitDf, grpCol, labelCol, autoThresholds, meanSkew,
    numCols, defaultOracle, List.filter_cons, List.filter_nil]

theorem fairWit_gm :
    groupMeans grpCol.cells labelCol.cells = [(0, some (1/2)), (1, some 1)] := by
  norm_num +decide [groupMeans, groupVals, grpCol, labelCol, List.zip_cons_cons,
    List.zip_nil_right, List.filterMap_cons, List.filterMap_nil,
    List.dedup_cons_of_mem, List.dedup_cons_of_not_mem, List.dedup_nil,
    List.map_cons, List.map_nil]

theorem fairWit_run :
    generateBiasReport fairWitDf defaultOracle = Except.ok [fairWitImb, fairWitFd] := by
  have hcat : detectCategoricalImbalance fairWitDf defaultOracle
      = Except.ok [fairWitImb] := by
    norm_num +decide [detectCategoricalImbalance, interFindings, imbalanceFindings,
      catCols, fairWitDf, grpCol, labelCol, fairWitImb, defaultOracle, sharesOf, maxQ,
      maxShare, List.zip_cons_cons, List.zip_nil_right, List.filterMap_cons,
      List.filterMap_nil, List.dedup_cons_of_mem, List.dedup_cons_of_not_mem,
      List.dedup_nil, max_def, List.filter_cons, List.filter_nil, List.count_cons,
      List.count_nil, List.map_cons, List.map_nil]
  have hmiss : detectMissingBias fairWitDf (mkThresholds fairWitDf defaultOracle)
      defaultOracle = [] := by
    rw [fairWit_thresholds]
    norm_num +decide [detectMissingBias, fairWitDf, grpCol, labelCol, sysMissBlock,
      catCols, missingRatio, defaultOracle, List.filter_cons, List.filter_nil,
      List.countP_cons, List.countP_nil, List.zip_cons_cons, List.zip_nil_right,
      List.filterMap_cons, List.filterMap_nil, List.dedup_cons_of_mem,
      List.dedup_cons_of_not_mem, List.dedup_nil, List.map_cons, List.map_nil]
  have hred : reducedView fairWitDf defaultOracle = none := by
    norm_num +decide [reducedView, defaultOracle, numCols, fairWitDf, grpCol, labelCol,
      List.filter_cons, List.filter_nil]
  have hcorr : detectNumericCorrelation fairWitDf (mkThresholds fairWitDf defaultOracle)
      defaultOracle none = [] := by
    norm_num +decide [detectNumericCorrelation, origPairFindings, origNumericPairsData,
      numCols, fairWitDf, grpCol, labelCol, List.filter_cons, List.filter_nil]
  have hout : detectOutlierBias fairWitDf (mkThresholds fairWitDf defaultOracle) = [] := by
    norm_num +decide [detectOutlierBias, numCols, fairWitDf, grpCol, labelCol,
      List.filter_cons, List.filter_nil]
  have htgt : detectTarget fairWitDf = some labelCol := by decide
  have hblock : catTargetBlock grpCol labelCol defaultOracle = [fairWitFd] := by
    norm_num +decide [catTargetBlock, pairedCells, grpCol, labelCol, defaultOracle,
      fdOfRates, groupMeans, groupVals, nuniqueCells, crossCounts, fairWitFd,
      List.zip_cons_cons, List.zip_nil_right, List.filterMap_cons, List.filterMap_nil,
      List.dedup_cons_of_mem, List.dedup_cons_of_not_mem, List.dedup_nil,
      List.map_cons, List.map_nil, abs_of_pos]
  have hta : detectTargetAssociation fairWitDf (some labelCol) defaultOracle
      = [fairWitFd] := by
    norm_num +decide [detectTargetAssociation, catCols, fairWitDf, hblock,
      List.filter_cons, List.filter_nil, List.flatMap_cons, List.flatMap_nil]
  rw [generateBiasReport, hcat]
  rw [hred, hmiss, hcorr, hout, htgt, hta]
  rfl

theorem C6_witness :
    ∃ f ∈ [fairWitImb, fairWitFd], f.ftype = "Fairness Disparity" ∧
      f.feature = "grp" ∧ (f.severity = "High" ↔ |(1/2 : ℚ) - 1| > 0.2) := by
  exact C6_fairness_disparity fairWitDf defaultOracle [fairWitImb, fairWitFd]
    fairWit_run labelCol (by decide) rfl grpCol (by decide) (by decide) (by decide)
    0 1 (1/2) 1 fairWit_gm (by norm_num [abs_of_pos])
